import Mathlib

/-!
Verification of the XTF synchronization core.

This file gives a shallow embedding of the reconciliation engine
(src/core/engine.py, src/core/converter.py), the adaptive chunked sheet
transport (src/api/sheet.py), the bitable pagination and business-code
retry loops (src/api/bitable.py), and the legacy rate limiter / retry
client (src/api/base.py), together with theorems checking the
natural-language specification against this embedding.
-/

namespace XTF

/-! ## Data model

A cell value as it appears in a pandas row or a remote record field.
Pandas represents a missing cell as the float NaN, and Python renders
that value as the string "nan"; the embedding keeps one constructor for
the missing cell and gives it exactly that rendering.
-/

/-- A cell value: a string, an integer, or a missing (null / NaN) cell. -/
inductive Value where
  | str (s : String)
  | int (n : Int)
  | null
deriving DecidableEq, Repr

/-- Python str() as applied to a cell value by the converter; a pandas
missing cell (float NaN) renders as "nan". -/
def pyStr : Value → String
  | .str s => s
  | .int n => toString n
  | .null => "nan"

/-- Model of hashlib.md5(...).hexdigest() as an injective digest of the
input string.  Every use in the source only compares digests for
equality, and the code operates under the standard assumption that the
digest is collision-free, so an injective function preserves exactly the
observable behaviour. -/
def md5 (s : String) : String := "md5:" ++ s

/-- A local row: mapping from column name to cell value, as produced by
DataFrame.iterrows(). -/
abbrev LocalRow : Type := List (String × Value)

/-- A remote record: remote-assigned record_id plus a field mapping
(src/api/bitable.py search results). -/
structure Record where
  record_id : String
  fields : List (String × Value)
deriving DecidableEq, Repr

/-! ## Converter (src/core/converter.py)

DataConverter.get_index_value_hash (lines 38-43) and
DataConverter.build_record_index (lines 45-58).
The Python truthiness test on index_column is modelled by Option String
(none stands for an unset or empty index column).  A Python dict keyed
by digest with last-assignment-wins is modelled as an association list
to which later entries are prepended, looked up front-to-back.
-/

/-- DataConverter.get_index_value_hash: if an index column is configured
and present in the row, the md5 digest of str(value); otherwise None.
Note the source tests only membership of the column, never whether the
value is null. -/
def get_index_value_hash (row : LocalRow) (indexColumn : Option String) :
    Option String :=
  match indexColumn with
  | none => none
  | some c =>
    match row.lookup c with
    | some v => some (md5 (pyStr v))
    | none => none

/-- The remote index type: digest of the index value to the record that
produced it. -/
abbrev RemoteIndex : Type := List (String × Record)

/-- DataConverter.build_record_index: fold over the records, indexing
each record that carries the index column by the digest of str(value);
a later record with the same digest overwrites an earlier one
(dict assignment), modelled by prepending so that lookup finds the most
recent entry. -/
def build_record_index (records : List Record) (indexColumn : Option String) :
    RemoteIndex :=
  match indexColumn with
  | none => []
  | some c =>
    records.foldl
      (fun idx r =>
        match r.fields.lookup c with
        | some v => (md5 (pyStr v), r) :: idx
        | none => idx)
      []

/-! ## Reconciliation plans (src/core/engine.py)

The planning loops of _sync_full_bitable (lines 959-997),
_sync_incremental_bitable (lines 1339-1358) and _sync_overwrite_bitable
(lines 1604-1613), at the granularity of row identities.  The
construction of the converted field payload (convert_field_value_safe)
is orthogonal to the routing decision and is not modelled; a row stands
for the record built from it, and a planned update keeps the matched
record_id exactly as the source attaches it.
-/

/-- The classification plan of one sync run: rows to update (paired with
the matched record's record_id), rows to create, record ids to delete. -/
structure SyncPlan where
  toUpdate : List (LocalRow × String)
  toCreate : List LocalRow
  toDelete : List String
deriving DecidableEq, Repr

/-- The routing test of the full-sync loop: the row has an index digest
and that digest is present in the remote index
(the source line: if index_hash and index_hash in existing_index). -/
def full_matched (idx : RemoteIndex) (indexColumn : Option String)
    (row : LocalRow) : Bool :=
  match get_index_value_hash row indexColumn with
  | some h => (idx.lookup h).isSome
  | none => false

/-- _sync_full_bitable classification loop: each row with a digest found
in the remote index is appended to the update list together with the
matched record's record_id, every other row to the create list; the
full sync issues no deletes. -/
def sync_full_plan (idx : RemoteIndex) (indexColumn : Option String)
    (rows : List LocalRow) : SyncPlan :=
  match rows with
  | [] => ⟨[], [], []⟩
  | row :: rest =>
    let plan := sync_full_plan idx indexColumn rest
    match get_index_value_hash row indexColumn with
    | some h =>
      match idx.lookup h with
      | some rec =>
        ⟨(row, rec.record_id) :: plan.toUpdate, plan.toCreate, []⟩
      | none => ⟨plan.toUpdate, row :: plan.toCreate, []⟩
    | none => ⟨plan.toUpdate, row :: plan.toCreate, []⟩

/-- _sync_incremental_bitable classification loop: a row is kept for
creation exactly when it has no digest or its digest is absent from the
remote index; matched rows are dropped. -/
def sync_incremental_create (idx : RemoteIndex) (indexColumn : Option String)
    (rows : List LocalRow) : List LocalRow :=
  rows.filter fun row =>
    match get_index_value_hash row indexColumn with
    | some h => (idx.lookup h).isNone
    | none => true

/-- _sync_overwrite_bitable deletion loop: for each local row whose
digest is found in the remote index, the matched record's record_id is
appended to the deletion list. -/
def overwrite_delete_ids (idx : RemoteIndex) (indexColumn : Option String)
    (rows : List LocalRow) : List String :=
  rows.filterMap fun row =>
    match get_index_value_hash row indexColumn with
    | some h => (idx.lookup h).map Record.record_id
    | none => none

/-- sync_overwrite (engine.py lines 1574-1592 and 1594-1651): with no
index column configured the sync fails immediately as a configuration
error (the source logs an error and returns False); otherwise the plan
deletes the matched records and recreates every local row via
df_to_records, which maps each row of the frame to a created record. -/
def sync_overwrite (indexColumn : Option String)
    (existingRecords : List Record) (rows : List LocalRow) :
    Option (List String × List LocalRow) :=
  match indexColumn with
  | none => none
  | some c =>
    some
      (overwrite_delete_ids (build_record_index existingRecords (some c))
        (some c) rows,
       rows)

/-! ## Adaptive chunked transport (src/api/sheet.py)

SheetAPI._upload_chunk_with_auto_split (lines 847-905),
SheetAPI._append_chunk_with_auto_split (lines 907-938), and the chunk
loop of write_sheet_data (lines 124-132).  The remote is modelled as an
oracle mapping each attempted request to its outcome: success or a
failure carrying the optional application error code that
_write_single_batch / _batch_update_ranges extract from the response
(None when the response body fails to parse).  The statistics record
the observable events of one upload: the overall boolean result, the
number of bisection (split) events, the number of successful network
calls, and the total number of network calls.
-/

/-- Error code 90227, self.ERROR_CODE_REQUEST_TOO_LARGE in sheet.py. -/
def ERROR_CODE_REQUEST_TOO_LARGE : Int := 90227

/-- Outcome of a single batch-write network call: success, or failure
with the optional error code extracted from the response. -/
inductive UploadResult where
  | ok
  | err (code : Option Int)
deriving DecidableEq, Repr

/-- A rectangular chunk as built by _create_data_chunks / the bisection:
data rows plus the 1-based row and column window. -/
structure Chunk (α : Type) where
  data : List α
  start_row : Nat
  end_row : Nat
  start_col : Nat
  end_col : Nat
deriving DecidableEq, Repr

/-- Observable statistics of one (recursive) chunk upload. -/
structure UploadStats where
  success : Bool
  splits : Nat
  okCalls : Nat
  calls : Nat
deriving DecidableEq, Repr

/-- The first sub-chunk of a bisection: data[:mid] with mid equal to
the row count divided by two rounding down, keeping the parent's
start_row and column window (source lines 878-887). -/
def firstHalf {α : Type} (c : Chunk α) : Chunk α :=
  { data := c.data.take (c.data.length / 2)
    start_row := c.start_row
    end_row := c.start_row + (c.data.take (c.data.length / 2)).length - 1
    start_col := c.start_col
    end_col := c.end_col }

/-- The second sub-chunk of a bisection: data[mid:], starting at
start_row + mid (source lines 889-896). -/
def secondHalf {α : Type} (c : Chunk α) : Chunk α :=
  { data := c.data.drop (c.data.length / 2)
    start_row := c.start_row + c.data.length / 2
    end_row := c.start_row + c.data.length / 2
      + (c.data.drop (c.data.length / 2)).length - 1
    start_col := c.start_col
    end_col := c.end_col }

/-- Sequencing of the two recursive sub-uploads.  Python evaluates
upload(chunk1) and upload(chunk2) with a short-circuit conjunction:
when the first half fails, the second half is never attempted, so its
events do not occur. -/
def combineStats (s1 s2 : UploadStats) : UploadStats :=
  if s1.success then
    ⟨s2.success, 1 + s1.splits + s2.splits, s1.okCalls + s2.okCalls,
      1 + s1.calls + s2.calls⟩
  else
    ⟨false, 1 + s1.splits, s1.okCalls, 1 + s1.calls⟩

/-- SheetAPI._upload_chunk_with_auto_split: attempt the chunk; on
success stop; on the request-too-large error code bisect and recurse on
both halves (second half only when the first succeeded), declaring
permanent failure when a single row is still rejected; on any other
failure return failure immediately. -/
def upload_chunk_with_auto_split {α : Type} (oracle : Chunk α → UploadResult)
    (c : Chunk α) : UploadStats :=
  match oracle c with
  | .ok => ⟨true, 0, 1, 1⟩
  | .err code =>
    if code = some ERROR_CODE_REQUEST_TOO_LARGE then
      if _h : c.data.length ≤ 1 then ⟨false, 0, 0, 1⟩
      else
        combineStats (upload_chunk_with_auto_split oracle (firstHalf c))
          (upload_chunk_with_auto_split oracle (secondHalf c))
    else ⟨false, 0, 0, 1⟩
termination_by c.data.length
decreasing_by
  · simp only [firstHalf, List.length_take]
    omega
  · simp only [secondHalf, List.length_drop]
    omega

/-- SheetAPI._append_chunk_with_auto_split: the same bisection over a
plain list of rows (no window bookkeeping). -/
def append_chunk_with_auto_split {α : Type} (oracle : List α → UploadResult)
    (values : List α) : UploadStats :=
  match oracle values with
  | .ok => ⟨true, 0, 1, 1⟩
  | .err code =>
    if code = some ERROR_CODE_REQUEST_TOO_LARGE then
      if _h : values.length ≤ 1 then ⟨false, 0, 0, 1⟩
      else
        combineStats
          (append_chunk_with_auto_split oracle
            (values.take (values.length / 2)))
          (append_chunk_with_auto_split oracle
            (values.drop (values.length / 2)))
    else ⟨false, 0, 0, 1⟩
termination_by values.length
decreasing_by
  · simp only [List.length_take]
    omega
  · simp only [List.length_drop]
    omega

/-- The chunk loop of write_sheet_data: dispatch the chunks in order and
return False as soon as one chunk's upload finally fails. -/
def write_sheet_data_chunks {α : Type} (oracle : Chunk α → UploadResult) :
    List (Chunk α) → Bool
  | [] => true
  | c :: rest =>
    if (upload_chunk_with_auto_split oracle c).success then
      write_sheet_data_chunks oracle rest
    else false

/-! ## Paginated record fetch (src/api/bitable.py)

BitableAPI.get_all_records (lines 384-439).  One run is driven by the
sequence of page responses the remote returns: each response is a pair
of the page's records and the optional next page token
(search_records returns page_token only while has_more is set).  The
loop accumulates records, tracks every next token it has seen, raises a
protocol error when a next token repeats, and stops when a response
carries no next token.  When the supplied response sequence runs out
before the loop stops on its own, the run is marked exhausted.
-/

/-- Result of one get_all_records run: normal completion with the
accumulated records and the number of search calls made; a raised
repeated-page-token protocol error, with the number of search calls
made before raising; or exhaustion of the supplied response sequence. -/
inductive FetchOutcome (α : Type) where
  | done (records : List α) (calls : Nat)
  | protoError (calls : Nat)
  | exhausted
deriving DecidableEq, Repr

/-- The get_all_records loop, one step per consumed page response. -/
def get_all_records_from {α : Type} (seen : List String) (acc : List α)
    (calls : Nat) : List (List α × Option String) → FetchOutcome α
  | [] => .exhausted
  | (recs, next) :: rest =>
    match next with
    | none => .done (acc ++ recs) (calls + 1)
    | some t =>
      if t ∈ seen then .protoError (calls + 1)
      else get_all_records_from (t :: seen) (acc ++ recs) (calls + 1) rest

/-- BitableAPI.get_all_records, starting with no seen tokens and no
accumulated records. -/
def get_all_records {α : Type} (pages : List (List α × Option String)) :
    FetchOutcome α :=
  get_all_records_from [] [] 0 pages

/-! ## Rate limiter (src/api/base.py lines 88-107)

RateLimiter.wait reads the clock, sleeps the remainder of the interval
when the previous recorded call is too recent, and records the current
time.  Time is modelled by the rationals; now is the first time.time()
reading inside wait(), and eps is the nonnegative extra time that
passes between the end of the sleep and the second time.time() reading
(zero for an idealized clock). -/

/-- RateLimiter state: the configured minimum interval (delay) and the
time of the last recorded call (0 initially). -/
structure RateLimiter where
  delay : ℚ
  last_call : ℚ
deriving DecidableEq, Repr

/-- The amount RateLimiter.wait sleeps: the remainder of the interval
when the time since the last call is smaller than it, otherwise
nothing. -/
def RateLimiter.sleepAmount (rl : RateLimiter) (now : ℚ) : ℚ :=
  if now - rl.last_call < rl.delay then rl.delay - (now - rl.last_call) else 0

/-- RateLimiter.wait: sleep as needed, then record the current time as
last_call. -/
def RateLimiter.wait (rl : RateLimiter) (now eps : ℚ) : RateLimiter :=
  { rl with last_call := now + rl.sleepAmount now + eps }

/-! ## Legacy retry loop (src/api/base.py lines 191-228)

RetryableAPIClient._call_api_legacy.  The attempts' outcomes are given
by a function from the attempt number to the outcome of that network
request: an HTTP response with its status code, or a raised
RequestException.  The loop runs attempts 0..max_retries; a 429 or 5xx
response or an exception before the last attempt sleeps 2^attempt
seconds and retries; at the last attempt the response is returned as is
and an exception propagates. -/

/-- What one attempt of the underlying requests.request call produces. -/
inductive ApiOutcome where
  | resp (status : Nat)
  | exc
deriving DecidableEq, Repr

/-- How one _call_api_legacy invocation ends: a returned response
(with its status code) or a propagated exception. -/
inductive LegacyResult where
  | returned (status : Nat)
  | raised
deriving DecidableEq, Repr

/-- Retry predicate of the legacy loop: HTTP 429 or a 5xx status. -/
def legacy_transient (status : Nat) : Bool :=
  status = 429 || 500 ≤ status

/-- The legacy loop from a given attempt number with the given number
of retries still allowed; returns the result and the list of slept
delays (in seconds) in order. -/
def call_api_legacy_from (outcomes : Nat → ApiOutcome) (attempt : Nat) :
    Nat → LegacyResult × List Nat
  | 0 =>
    match outcomes attempt with
    | .resp s => (.returned s, [])
    | .exc => (.raised, [])
  | remaining + 1 =>
    match outcomes attempt with
    | .resp s =>
      if legacy_transient s then
        let next := call_api_legacy_from outcomes (attempt + 1) remaining
        (next.1, 2 ^ attempt :: next.2)
      else (.returned s, [])
    | .exc =>
      let next := call_api_legacy_from outcomes (attempt + 1) remaining
      (next.1, 2 ^ attempt :: next.2)

/-- RetryableAPIClient._call_api_legacy with the configured max_retries. -/
def call_api_legacy (maxRetries : Nat) (outcomes : Nat → ApiOutcome) :
    LegacyResult × List Nat :=
  call_api_legacy_from outcomes 0 maxRetries

/-- Modelled from the spec: the ExponentialBackoffRetry strategy of
core/control.py, which is not under src/ (only its tests in
src/tests/test_control.py and its caller src/api/base.py are).
Per the spec: delay = min(initialDelay * multiplier^attempt,
maxWaitTime), the cap applying only when maxWaitTime is configured. -/
def exponential_backoff_delay (initialDelay multiplier : ℚ)
    (maxWaitTime : Option ℚ) (attempt : Nat) : ℚ :=
  match maxWaitTime with
  | none => initialDelay * multiplier ^ attempt
  | some cap => min (initialDelay * multiplier ^ attempt) cap

/-! ## Business-code retry (src/api/bitable.py)

BitableAPI._is_retryable_biz_code (lines 165-173) and
BitableAPI._call_api_with_biz_retry (lines 175-217).  The responses of
the successive attempts are given by a function from the attempt number
to the parsed business code of that attempt's response (None when the
body fails to parse as JSON). -/

/-- RETRYABLE_BIZ_CODES (bitable.py lines 134-140). -/
def RETRYABLE_BIZ_CODES : List Int :=
  [1254290, 1254607, 1254002, 1254001, 1254006]

/-- NON_RETRYABLE_BIZ_CODES (bitable.py lines 143-149); consulted only
to decide whether to log an unknown-code warning, never changing the
returned decision. -/
def NON_RETRYABLE_BIZ_CODES : List Int :=
  [1254000, 1254003, 1254004, 1254005, 1254040]

/-- BitableAPI._is_retryable_biz_code: true exactly on the fixed
retryable set; every other code (known non-retryable or unknown) is
not retried. -/
def is_retryable_biz_code (code : Int) : Bool :=
  if code ∈ RETRYABLE_BIZ_CODES then true else false

/-- The _call_api_with_biz_retry loop from a given attempt number with
the given number of retries still allowed; returns the final parsed
code (None for an unparseable body), the total number of API calls
made, and the slept delays in order. -/
def biz_retry_from (responses : Nat → Option Int) (attempt : Nat) :
    Nat → Option Int × Nat × List Nat
  | 0 => (responses attempt, attempt + 1, [])
  | remaining + 1 =>
    match responses attempt with
    | none => (none, attempt + 1, [])
    | some code =>
      if code = 0 || !is_retryable_biz_code code then
        (some code, attempt + 1, [])
      else
        let next := biz_retry_from responses (attempt + 1) remaining
        (next.1, next.2.1, 2 ^ attempt :: next.2.2)

/-- BitableAPI._call_api_with_biz_retry with the configured
max_retries. -/
def call_api_with_biz_retry (maxRetries : Nat)
    (responses : Nat → Option Int) : Option Int × Nat × List Nat :=
  biz_retry_from responses 0 maxRetries

/-! ## The oversized-bisection scenario (spec section 8)

A 1000-row chunk is rejected as oversized; of the two 500-row halves
the first (still starting at row 1) is again rejected as oversized; all
other attempted sub-chunks succeed.  The remote behaviour is a function
of the attempted request, matching exactly that scenario. -/

/-- Remote behaviour of the oversized-bisection scenario. -/
def scenario_oracle (c : Chunk Nat) : UploadResult :=
  if c.data.length = 1000 then .err (some ERROR_CODE_REQUEST_TOO_LARGE)
  else if c.data.length = 500 ∧ c.start_row = 1 then
    .err (some ERROR_CODE_REQUEST_TOO_LARGE)
  else .ok

/-- The initial 1000-row chunk of the scenario. -/
def scenario_chunk : Chunk Nat := ⟨List.range 1000, 1, 1000, 1, 5⟩

/-- The pair the full-sync loop appends for a matched row: the row
together with the matched record's record_id. -/
def matched_pair (idx : RemoteIndex) (indexColumn : Option String)
    (row : LocalRow) : Option (LocalRow × String) :=
  match get_index_value_hash row indexColumn with
  | some h => (idx.lookup h).map (fun r => (row, r.record_id))
  | none => none

/-! ## Helper lemmas on the reconciliation plans -/

lemma sync_full_plan_toUpdate (idx : RemoteIndex) (col : Option String) :
    ∀ rows : List LocalRow,
      (sync_full_plan idx col rows).toUpdate
        = rows.filterMap (matched_pair idx col) := by
  intro rows
  induction rows with
  | nil => rfl
  | cons row rest ih =>
    cases hh : get_index_value_hash row col with
    | none => simp [sync_full_plan, matched_pair, hh, ih]
    | some h =>
      cases hl : idx.lookup h with
      | none => simp [sync_full_plan, matched_pair, hh, hl, ih]
      | some rec => simp [sync_full_plan, matched_pair, hh, hl, ih]

lemma sync_full_plan_toCreate (idx : RemoteIndex) (col : Option String) :
    ∀ rows : List LocalRow,
      (sync_full_plan idx col rows).toCreate
        = rows.filter (fun row => !(full_matched idx col row)) := by
  intro rows
  induction rows with
  | nil => rfl
  | cons row rest ih =>
    cases hh : get_index_value_hash row col with
    | none => simp [sync_full_plan, full_matched, hh, ih]
    | some h =>
      cases hl : idx.lookup h with
      | none => simp [sync_full_plan, full_matched, hh, hl, ih]
      | some rec => simp [sync_full_plan, full_matched, hh, hl, ih]

lemma sync_full_plan_sources (idx : RemoteIndex) (col : Option String) :
    ∀ rows : List LocalRow,
      (sync_full_plan idx col rows).toUpdate.map Prod.fst
        = rows.filter (full_matched idx col) := by
  intro rows
  induction rows with
  | nil => rfl
  | cons row rest ih =>
    cases hh : get_index_value_hash row col with
    | none => simp [sync_full_plan, full_matched, hh, ih]
    | some h =>
      cases hl : idx.lookup h with
      | none => simp [sync_full_plan, full_matched, hh, hl, ih]
      | some rec => simp [sync_full_plan, full_matched, hh, hl, ih]

lemma sync_full_plan_toDelete (idx : RemoteIndex) (col : Option String)
    (rows : List LocalRow) : (sync_full_plan idx col rows).toDelete = [] := by
  cases rows with
  | nil => rfl
  | cons row rest =>
    cases hh : get_index_value_hash row col with
    | none => simp [sync_full_plan, hh]
    | some h =>
      cases hl : idx.lookup h with
      | none => simp [sync_full_plan, hh, hl]
      | some rec => simp [sync_full_plan, hh, hl]

lemma sync_incremental_create_eq (idx : RemoteIndex) (col : Option String)
    (rows : List LocalRow) :
    sync_incremental_create idx col rows
      = rows.filter (fun row => !(full_matched idx col row)) := by
  unfold sync_incremental_create
  apply List.filter_congr
  intro row _
  cases hh : get_index_value_hash row col with
  | none => simp [full_matched, hh]
  | some h =>
    cases hl : idx.lookup h with
    | none => simp [full_matched, hh, hl]
    | some rec => simp [full_matched, hh, hl]

lemma overwrite_delete_ids_mem (idx : RemoteIndex) (col : Option String)
    (rows : List LocalRow) (rid : String) :
    rid ∈ overwrite_delete_ids idx col rows
      ↔ ∃ row ∈ rows, ∃ h rec, get_index_value_hash row col = some h
          ∧ idx.lookup h = some rec ∧ rec.record_id = rid := by
  unfold overwrite_delete_ids
  rw [List.mem_filterMap]
  refine exists_congr fun row => and_congr_right fun _ => ?_
  cases hh : get_index_value_hash row col with
  | none => simp [hh]
  | some h =>
    cases hl : idx.lookup h with
    | none => simp [hh, hl]
    | some rec => simp [hh, hl, eq_comm]

/-! ## Claim theorems: reconciliation -/

/-- C1, counterexample.  The claim asserts that under Full, Incremental
and Overwrite the union of the create set and the update-source rows
equals the full local row set.  Under the Incremental policy the code
drops a matched row entirely: with one local row whose index value
matches the one remote record, the create set is empty (and incremental
sync has no update set at all), so the union misses the row. -/
theorem incremental_drops_matched :
    sync_incremental_create
        (build_record_index [⟨"r1", [("k", Value.str "a")]⟩] (some "k"))
        (some "k") [[("k", Value.str "a")]] = []
    ∧ ([[("k", Value.str "a")]] : List LocalRow) ≠ [] := by
  exact ⟨by decide, by simp⟩

/-- C1, amended.  With any remote index and any configured index
column: the full-sync plan sends each matched row to the update set
paired with the matched record's record_id (the filterMap of
matched_pair), every other row to the create set, and deletes nothing;
the update sources and the create set partition the local rows (their
concatenation is a permutation of the row list, each row exactly once).
The same partition holds under Overwrite (the plan recreates exactly
the full row list, and its update set is empty).  Under Incremental the
create set is exactly the unmatched rows; matched rows are dropped and
appear in no set. -/
theorem full_plan_partition (idx : RemoteIndex) (col : Option String)
    (c : String) (recs : List Record) (rows : List LocalRow) :
    (sync_full_plan idx col rows).toUpdate
        = rows.filterMap (matched_pair idx col)
    ∧ (sync_full_plan idx col rows).toCreate
        = rows.filter (fun row => !(full_matched idx col row))
    ∧ (sync_full_plan idx col rows).toDelete = []
    ∧ ((sync_full_plan idx col rows).toUpdate.map Prod.fst
        ++ (sync_full_plan idx col rows).toCreate).Perm rows
    ∧ (sync_overwrite (some c) recs rows).map Prod.snd = some rows
    ∧ sync_incremental_create idx col rows
        = rows.filter (fun row => !(full_matched idx col row)) := by
  refine ⟨sync_full_plan_toUpdate idx col rows,
    sync_full_plan_toCreate idx col rows,
    sync_full_plan_toDelete idx col rows, ?_, rfl,
    sync_incremental_create_eq idx col rows⟩
  rw [sync_full_plan_sources, sync_full_plan_toCreate]
  exact List.filter_append_perm (full_matched idx col) rows

/-- C2.  With no index column configured, overwrite sync fails as a
configuration error (no plan, no fallback).  With an index column, the
plan deletes exactly the remote records whose index digest matches some
local row, and recreates every local row (the create component is the
full row list; there is no update component). -/
theorem overwrite_plan_spec :
    (∀ (recs : List Record) (rows : List LocalRow),
        sync_overwrite none recs rows = none)
    ∧ (∀ (c : String) (recs : List Record) (rows : List LocalRow),
        sync_overwrite (some c) recs rows
          = some (overwrite_delete_ids
              (build_record_index recs (some c)) (some c) rows, rows))
    ∧ (∀ (idx : RemoteIndex) (col : Option String) (rows : List LocalRow)
        (rid : String),
        rid ∈ overwrite_delete_ids idx col rows
          ↔ ∃ row ∈ rows, ∃ h rec, get_index_value_hash row col = some h
              ∧ idx.lookup h = some rec ∧ rec.record_id = rid) :=
  ⟨fun _ _ => rfl, fun _ _ _ => rfl, overwrite_delete_ids_mem⟩

/-- C5, counterexample.  The claim asserts that a null value in the
index column yields no index key, so the row is never matched and
always routed to the create set.  In the code a null cell still passes
the membership test and is hashed through str(), yielding the digest of
the string nan: a local row with a null index value matches a remote
record whose index field holds that string, and is routed to the
update set, not the create set. -/
theorem null_index_value_matched :
    sync_full_plan
        (build_record_index [⟨"r1", [("k", Value.str "nan")]⟩] (some "k"))
        (some "k") [[("k", Value.null)]]
      = ⟨[([("k", Value.null)], "r1")], [], []⟩ := by
  decide

/-- C5, amended.  No configured index column, or absence of the
configured column from the row, yields no index key, and a keyless row
is always routed to the create set and never to the update set; but a
null value in a present index column yields the digest of its string
form (pandas renders the missing cell as the string nan), so such a row
is matched like any other value. -/
theorem index_key_routing :
    (∀ row : LocalRow, get_index_value_hash row none = none)
    ∧ (∀ (row : LocalRow) (c : String), row.lookup c = none →
        get_index_value_hash row (some c) = none)
    ∧ (∀ (row : LocalRow) (c : String) (v : Value), row.lookup c = some v →
        get_index_value_hash row (some c) = some (md5 (pyStr v)))
    ∧ pyStr Value.null = "nan"
    ∧ (∀ (idx : RemoteIndex) (col : Option String) (rows : List LocalRow)
        (row : LocalRow), row ∈ rows → get_index_value_hash row col = none →
          row ∈ (sync_full_plan idx col rows).toCreate
          ∧ ∀ rid, (row, rid) ∉ (sync_full_plan idx col rows).toUpdate) := by
  refine ⟨fun _ => rfl, ?_, ?_, rfl, ?_⟩
  · intro row c h
    simp [get_index_value_hash, h]
  · intro row c v h
    simp [get_index_value_hash, h]
  · intro idx col rows row hmem hnone
    constructor
    · rw [sync_full_plan_toCreate]
      exact List.mem_filter.mpr ⟨hmem, by simp [full_matched, hnone]⟩
    · intro rid hmemU
      rw [sync_full_plan_toUpdate] at hmemU
      obtain ⟨row', _, hpair⟩ := List.mem_filterMap.mp hmemU
      unfold matched_pair at hpair
      cases hh : get_index_value_hash row' col with
      | none => rw [hh] at hpair; exact Option.noConfusion hpair
      | some h =>
        rw [hh] at hpair
        obtain ⟨rec, _, heq⟩ := Option.map_eq_some'.mp hpair
        have hrow : row' = row := congrArg Prod.fst heq
        rw [hrow] at hh
        rw [hnone] at hh
        exact Option.noConfusion hh

/-- C5 witness: a row lacking the configured index column is routed to
the create set. -/
theorem index_key_routing_witness :
    ([("a", Value.str "x")] : LocalRow)
      ∈ (sync_full_plan [] (some "z")
          [[("a", Value.str "x")]]).toCreate :=
  (index_key_routing.2.2.2.2 [] (some "z") [[("a", Value.str "x")]]
      [("a", Value.str "x")] (by decide) (by decide)).1

/-! ## Helper lemmas on the chunk transport -/

lemma upload_of_ok {α : Type} (oracle : Chunk α → UploadResult) (c : Chunk α)
    (h : oracle c = .ok) :
    upload_chunk_with_auto_split oracle c = ⟨true, 0, 1, 1⟩ := by
  rw [upload_chunk_with_auto_split.eq_def, h]

lemma upload_of_toolarge_split {α : Type} (oracle : Chunk α → UploadResult)
    (c : Chunk α) (h : oracle c = .err (some ERROR_CODE_REQUEST_TOO_LARGE))
    (hn : 2 ≤ c.data.length) :
    upload_chunk_with_auto_split oracle c
      = combineStats (upload_chunk_with_auto_split oracle (firstHalf c))
          (upload_chunk_with_auto_split oracle (secondHalf c)) := by
  conv_lhs => rw [upload_chunk_with_auto_split.eq_def]
  rw [h]
  simp only [if_pos rfl]
  rw [dif_neg (by omega)]
  simp

lemma upload_of_toolarge_single {α : Type} (oracle : Chunk α → UploadResult)
    (c : Chunk α) (h : oracle c = .err (some ERROR_CODE_REQUEST_TOO_LARGE))
    (hn : c.data.length ≤ 1) :
    upload_chunk_with_auto_split oracle c = ⟨false, 0, 0, 1⟩ := by
  rw [upload_chunk_with_auto_split.eq_def, h]
  simp [hn]

lemma upload_of_other_error {α : Type} (oracle : Chunk α → UploadResult)
    (c : Chunk α) (code : Option Int) (h : oracle c = .err code)
    (hc : code ≠ some ERROR_CODE_REQUEST_TOO_LARGE) :
    upload_chunk_with_auto_split oracle c = ⟨false, 0, 0, 1⟩ := by
  rw [upload_chunk_with_auto_split.eq_def, h]
  simp [hc]

lemma append_of_toolarge_split {α : Type} (oracle : List α → UploadResult)
    (vs : List α) (h : oracle vs = .err (some ERROR_CODE_REQUEST_TOO_LARGE))
    (hn : 2 ≤ vs.length) :
    append_chunk_with_auto_split oracle vs
      = combineStats
          (append_chunk_with_auto_split oracle (vs.take (vs.length / 2)))
          (append_chunk_with_auto_split oracle (vs.drop (vs.length / 2))) := by
  conv_lhs => rw [append_chunk_with_auto_split.eq_def]
  rw [h]
  simp only [if_pos rfl]
  rw [dif_neg (by omega)]
  simp

lemma append_of_toolarge_single {α : Type} (oracle : List α → UploadResult)
    (vs : List α) (h : oracle vs = .err (some ERROR_CODE_REQUEST_TOO_LARGE))
    (hn : vs.length ≤ 1) :
    append_chunk_with_auto_split oracle vs = ⟨false, 0, 0, 1⟩ := by
  rw [append_chunk_with_auto_split.eq_def, h]
  simp [hn]

/-! ## Claim theorems: transport -/

/-- C3.  When the remote rejects a chunk of n rows with the
request-too-large error code and n is at least 2, the transport splits
it into a first half of exactly n / 2 (rounded down) rows and a second
half holding the remaining rows, their concatenation restoring the
chunk's rows in order, and the upload result is the sequential
combination of the two recursive half uploads; both halves are strictly
smaller than the parent, and a chunk of a single row that is still
rejected as oversized fails permanently without splitting, so the
recursion terminates (the upload functions are total).  The same split
behaviour holds for the append transport. -/
theorem oversized_bisection {α : Type} (oracle : Chunk α → UploadResult)
    (appendOracle : List α → UploadResult) (c : Chunk α) (vs : List α) :
    (oracle c = .err (some ERROR_CODE_REQUEST_TOO_LARGE) →
      2 ≤ c.data.length →
        (firstHalf c).data = c.data.take (c.data.length / 2)
        ∧ (secondHalf c).data = c.data.drop (c.data.length / 2)
        ∧ (firstHalf c).data.length = c.data.length / 2
        ∧ (secondHalf c).data.length = c.data.length - c.data.length / 2
        ∧ (firstHalf c).data ++ (secondHalf c).data = c.data
        ∧ (firstHalf c).data.length < c.data.length
        ∧ (secondHalf c).data.length < c.data.length
        ∧ upload_chunk_with_auto_split oracle c
            = combineStats
                (upload_chunk_with_auto_split oracle (firstHalf c))
                (upload_chunk_with_auto_split oracle (secondHalf c)))
    ∧ (oracle c = .err (some ERROR_CODE_REQUEST_TOO_LARGE) →
        c.data.length = 1 →
        upload_chunk_with_auto_split oracle c = ⟨false, 0, 0, 1⟩)
    ∧ (appendOracle vs = .err (some ERROR_CODE_REQUEST_TOO_LARGE) →
        2 ≤ vs.length →
        append_chunk_with_auto_split appendOracle vs
          = combineStats
              (append_chunk_with_auto_split appendOracle
                (vs.take (vs.length / 2)))
              (append_chunk_with_auto_split appendOracle
                (vs.drop (vs.length / 2))))
    ∧ (appendOracle vs = .err (some ERROR_CODE_REQUEST_TOO_LARGE) →
        vs.length = 1 →
        append_chunk_with_auto_split appendOracle vs = ⟨false, 0, 0, 1⟩) := by
  refine ⟨fun h hn => ?_, fun h hn => upload_of_toolarge_single oracle c h (by omega),
    fun h hn => append_of_toolarge_split appendOracle vs h hn,
    fun h hn => append_of_toolarge_single appendOracle vs h (by omega)⟩
  refine ⟨rfl, rfl, ?_, ?_, ?_, ?_, ?_, upload_of_toolarge_split oracle c h hn⟩
  · simp [firstHalf]
    omega
  · simp [secondHalf]
  · simp [firstHalf, secondHalf]
  · simp [firstHalf]
    omega
  · simp [secondHalf]
    omega

/-- C3 witness: a single-row chunk rejected as oversized fails
permanently after one network call. -/
theorem oversized_bisection_witness :
    upload_chunk_with_auto_split
        (fun _ : Chunk Nat => UploadResult.err (some ERROR_CODE_REQUEST_TOO_LARGE))
        ⟨[0], 1, 1, 1, 1⟩
      = ⟨false, 0, 0, 1⟩ :=
  (oversized_bisection
      (fun _ : Chunk Nat => UploadResult.err (some ERROR_CODE_REQUEST_TOO_LARGE))
      (fun _ : List Nat => UploadResult.err (some ERROR_CODE_REQUEST_TOO_LARGE))
      ⟨[0], 1, 1, 1, 1⟩ [0]).2.1 rfl rfl

/-- C4.  A chunk failure whose error code is not the
request-too-large code is never bisected: the upload returns permanent
failure after that single network call (zero splits), and a chunk whose
upload finally fails makes the enclosing write operation return
failure. -/
theorem non_oversized_fails_immediately {α : Type}
    (oracle : Chunk α → UploadResult) (c : Chunk α) (code : Option Int)
    (chunks : List (Chunk α)) :
    (oracle c = .err code → code ≠ some ERROR_CODE_REQUEST_TOO_LARGE →
        upload_chunk_with_auto_split oracle c = ⟨false, 0, 0, 1⟩)
    ∧ (c ∈ chunks → (upload_chunk_with_auto_split oracle c).success = false →
        write_sheet_data_chunks oracle chunks = false) := by
  constructor
  · exact fun h hc => upload_of_other_error oracle c code h hc
  · intro hmem hfail
    induction chunks with
    | nil => cases hmem
    | cons c0 rest ih =>
      rw [write_sheet_data_chunks]
      rcases List.mem_cons.mp hmem with hc0 | hrest
      · rw [hc0] at hfail
        simp [hfail]
      · by_cases hs : (upload_chunk_with_auto_split oracle c0).success
        · simp [hs, ih hrest]
        · simp [hs]

/-- C4 witness: a parse failure (no error code) on a two-row chunk is
not bisected and fails the single-chunk write. -/
theorem non_oversized_fails_immediately_witness :
    upload_chunk_with_auto_split (fun _ : Chunk Nat => UploadResult.err none)
        ⟨[0, 1], 1, 2, 1, 1⟩
      = ⟨false, 0, 0, 1⟩ :=
  (non_oversized_fails_immediately
      (fun _ : Chunk Nat => UploadResult.err none) ⟨[0, 1], 1, 2, 1, 1⟩ none
      []).1 rfl (by decide)

lemma scenario_eval :
    upload_chunk_with_auto_split scenario_oracle scenario_chunk
      = ⟨true, 2, 3, 5⟩ := by
  have hc1 : firstHalf scenario_chunk
      = ⟨(List.range 1000).take 500, 1, 500, 1, 5⟩ := by
    simp [firstHalf, scenario_chunk]
  have hc2 : secondHalf scenario_chunk
      = ⟨(List.range 1000).drop 500, 501, 1000, 1, 5⟩ := by
    simp [secondHalf, scenario_chunk]
  have hc11 : firstHalf (⟨(List.range 1000).take 500, 1, 500, 1, 5⟩ : Chunk Nat)
      = ⟨((List.range 1000).take 500).take 250, 1, 250, 1, 5⟩ := by
    simp [firstHalf]
  have hc12 : secondHalf (⟨(List.range 1000).take 500, 1, 500, 1, 5⟩ : Chunk Nat)
      = ⟨((List.range 1000).take 500).drop 250, 251, 500, 1, 5⟩ := by
    simp [secondHalf]
  rw [upload_of_toolarge_split scenario_oracle scenario_chunk
      (by simp [scenario_oracle, scenario_chunk]) (by simp [scenario_chunk])]
  rw [hc1, hc2]
  rw [upload_of_toolarge_split scenario_oracle _
      (by simp [scenario_oracle]) (by simp)]
  rw [hc11, hc12]
  rw [upload_of_ok scenario_oracle _ (by simp [scenario_oracle])]
  rw [upload_of_ok scenario_oracle _ (by simp [scenario_oracle])]
  rw [upload_of_ok scenario_oracle _ (by simp [scenario_oracle])]
  rfl

/-- C9, counterexample.  On the scenario of the claim (1000-row chunk
oversized, one resulting 500-row half again oversized, every other
attempted sub-chunk succeeding) the transport performs 2 bisection
events and 3 successful network calls, not the claimed 3 and 4. -/
theorem bisection_scenario_counts :
    (upload_chunk_with_auto_split scenario_oracle scenario_chunk).splits = 2
    ∧ (upload_chunk_with_auto_split scenario_oracle scenario_chunk).okCalls = 3
    ∧ ¬((upload_chunk_with_auto_split scenario_oracle scenario_chunk).splits = 3
        ∧ (upload_chunk_with_auto_split scenario_oracle scenario_chunk).okCalls
            = 4) := by
  rw [scenario_eval]
  exact ⟨rfl, rfl, by simp⟩

/-- C9, amended.  In that scenario the branch completes successfully
with exactly 2 bisection events, 3 successful network calls, and 5
network calls in total. -/
theorem bisection_scenario_counts_actual :
    upload_chunk_with_auto_split scenario_oracle scenario_chunk
      = ⟨true, 2, 3, 5⟩ :=
  scenario_eval

/-! ## Helper lemmas on pagination -/

lemma get_all_records_from_done {α : Type} :
    ∀ (body : List (List α × String)) (seen : List String) (acc : List α)
      (calls : Nat) (last : List α),
      (∀ t ∈ body.map Prod.snd, t ∉ seen) →
      (body.map Prod.snd).Nodup →
      get_all_records_from seen acc calls
          (body.map (fun q => (q.1, some q.2)) ++ [(last, none)])
        = .done (acc ++ (body.map Prod.fst).flatten ++ last)
            (calls + body.length + 1) := by
  intro body
  induction body with
  | nil =>
    intro seen acc calls last _ _
    simp [get_all_records_from]
  | cons q rest ih =>
    intro seen acc calls last hseen hnodup
    obtain ⟨r, t⟩ := q
    have ht : t ∉ seen := hseen t (by simp)
    simp only [List.map_cons, List.cons_append, get_all_records_from,
      if_neg ht]
    rw [List.append_eq, ih (t :: seen) (acc ++ r) (calls + 1) last ?_ ?_]
    · congr 1
      · simp [List.append_assoc]
      · simp only [List.length_cons]
        omega
    · intro t' ht'
      simp only [List.mem_cons]
      rintro (rfl | hmem)
      · exact (List.nodup_cons.mp (by simpa using hnodup)).1 ht'
      · exact hseen t' (by simp [ht']) hmem
    · exact (List.nodup_cons.mp (by simpa using hnodup)).2

lemma get_all_records_from_protoError {α : Type} :
    ∀ (body : List (List α × String)) (seen : List String) (acc : List α)
      (calls : Nat) (p : List α × String)
      (rest : List (List α × Option String)),
      (∀ t ∈ body.map Prod.snd, t ∉ seen) →
      (body.map Prod.snd).Nodup →
      (p.2 ∈ seen ∨ p.2 ∈ body.map Prod.snd) →
      get_all_records_from seen acc calls
          (body.map (fun q => (q.1, some q.2)) ++ (p.1, some p.2) :: rest)
        = .protoError (calls + body.length + 1) := by
  intro body
  induction body with
  | nil =>
    intro seen acc calls p rest _ _ hrep
    have hp : p.2 ∈ seen := by simpa using hrep
    simp [get_all_records_from, hp]
  | cons q rest0 ih =>
    intro seen acc calls p rest hseen hnodup hrep
    obtain ⟨r, t⟩ := q
    have ht : t ∉ seen := hseen t (by simp)
    simp only [List.map_cons, List.cons_append, get_all_records_from,
      if_neg ht]
    rw [List.append_eq, ih (t :: seen) (acc ++ r) (calls + 1) p rest ?_ ?_ ?_]
    · congr 1
      simp only [List.length_cons]
      omega
    · intro t' ht'
      simp only [List.mem_cons]
      rintro (rfl | hmem)
      · exact (List.nodup_cons.mp (by simpa using hnodup)).1 ht'
      · exact hseen t' (by simp [ht']) hmem
    · exact (List.nodup_cons.mp (by simpa using hnodup)).2
    · rcases hrep with hp | hp
      · exact Or.inl (by simp [hp])
      · rcases (by simpa using hp : p.2 = t ∨ p.2 ∈ rest0.map Prod.snd) with
          h1 | h1
        · exact Or.inl (by simp [h1])
        · exact Or.inr h1

/-! ## Claim theorems: pagination -/

/-- C6.  For a response sequence whose next-page tokens are pairwise
distinct and whose final consumed response carries no next token, the
read-all loop accumulates every page's records in order and makes one
search call per page.  When a response's next token repeats a
previously seen token, the operation ends in a protocol error right
after that response, making no further search call: the result does
not depend on any later response. -/
theorem pagination_spec {α : Type} (body : List (List α × String))
    (last : List α) (p : List α × String)
    (rest : List (List α × Option String)) :
    ((body.map Prod.snd).Nodup →
      get_all_records (body.map (fun q => (q.1, some q.2)) ++ [(last, none)])
        = .done ((body.map Prod.fst).flatten ++ last) (body.length + 1))
    ∧ ((body.map Prod.snd).Nodup → p.2 ∈ body.map Prod.snd →
      get_all_records
          (body.map (fun q => (q.1, some q.2)) ++ (p.1, some p.2) :: rest)
        = .protoError (body.length + 1)) := by
  constructor
  · intro hnodup
    unfold get_all_records
    rw [get_all_records_from_done body [] [] 0 last (by simp) hnodup]
    simp
  · intro hnodup hrep
    unfold get_all_records
    rw [get_all_records_from_protoError body [] [] 0 p rest (by simp) hnodup
      (Or.inr hrep)]
    simp

/-- C6 witness: two pages with distinct tokens followed by a final
page. -/
theorem pagination_spec_witness :
    get_all_records
        ([([1, 2], some "a"), ([3], some "b"), ([4], none)] :
          List (List Nat × Option String))
      = .done [1, 2, 3, 4] 3 :=
  ((pagination_spec [([1, 2], "a"), ([3], "b")] [4] ([], "a") []).1
      (by decide)).trans (by decide)

/-! ## Claim theorems: rate limiter -/

/-- C7.  One completed wait() advances the recorded last-call time by
at least the configured interval, whatever the current clock reading:
consecutive recorded calls are separated by at least the delay.  The
parameter eps is the nonnegative extra time between the end of the
sleep and the recording time.time() call. -/
theorem rate_limiter_min_gap (rl : RateLimiter) (now eps : ℚ)
    (heps : 0 ≤ eps) :
    rl.delay ≤ (rl.wait now eps).last_call - rl.last_call := by
  unfold RateLimiter.wait RateLimiter.sleepAmount
  dsimp only
  split
  · linarith
  · linarith

/-- C7 witness: interval one half, previous call at time 0, clock now
at one tenth. -/
theorem rate_limiter_min_gap_witness :
    (0 : ℚ) ≤ 0
    ∧ ({ delay := 1/2, last_call := 0 } : RateLimiter).delay
        ≤ (({ delay := 1/2, last_call := 0 } : RateLimiter).wait (1/10)
              0).last_call
          - ({ delay := 1/2, last_call := 0 } : RateLimiter).last_call :=
  ⟨le_refl 0, rate_limiter_min_gap { delay := 1/2, last_call := 0 } (1/10) 0
      (le_refl 0)⟩

/-! ## Helper lemmas on the retry loops -/

lemma call_api_legacy_from_delays (outcomes : Nat → ApiOutcome) :
    ∀ (remaining attempt : Nat),
      (call_api_legacy_from outcomes attempt remaining).2.length ≤ remaining
      ∧ (call_api_legacy_from outcomes attempt remaining).2
          = (List.range' attempt
              (call_api_legacy_from outcomes attempt remaining).2.length).map
              (2 ^ ·) := by
  intro remaining
  induction remaining with
  | zero =>
    intro attempt
    cases h : outcomes attempt with
    | resp s => simp [call_api_legacy_from, h]
    | exc => simp [call_api_legacy_from, h]
  | succ r ih =>
    intro attempt
    cases h : outcomes attempt with
    | resp s =>
      by_cases ht : legacy_transient s
      · have := ih (attempt + 1)
        simp only [call_api_legacy_from, h, ht, if_pos]
        constructor
        · simp only [List.length_cons]
          omega
        · simp only [List.length_cons, List.range'_succ, List.map_cons]
          rw [← this.2]
      · simp [call_api_legacy_from, h, ht]
    | exc =>
      have := ih (attempt + 1)
      simp only [call_api_legacy_from, h]
      constructor
      · simp only [List.length_cons]
        omega
      · simp only [List.length_cons, List.range'_succ, List.map_cons]
        rw [← this.2]

lemma call_api_legacy_from_all_exc (outcomes : Nat → ApiOutcome)
    (h : ∀ i, outcomes i = .exc) :
    ∀ (remaining attempt : Nat),
      call_api_legacy_from outcomes attempt remaining
        = (.raised, (List.range' attempt remaining).map (2 ^ ·)) := by
  intro remaining
  induction remaining with
  | zero => intro attempt; simp [call_api_legacy_from, h attempt]
  | succ r ih =>
    intro attempt
    simp only [call_api_legacy_from, h attempt, ih (attempt + 1),
      List.range'_succ, List.map_cons]

/-! ## Claim theorems: retry and backoff -/

/-- C8.  In the legacy retry loop the delay slept before the k-th retry
(k counted from 0) is 2^k seconds, which is the spec's exponential
formula with initial delay 1, multiplier 2 and no configured cap; at
most maxRetries retries happen; and when every attempt raises a network
exception the loop sleeps exactly the maxRetries exponential delays and
then propagates the failure.  The exponential strategy of the unified
controller, modelled from the spec as exponential_backoff_delay, caps
each delay at maxWaitTime: with initial 1, multiplier 2 and cap 5 the
delay sequence is 1, 2, 4, 5, 5. -/
theorem legacy_retry_backoff (maxRetries : Nat) (outcomes : Nat → ApiOutcome) :
    (call_api_legacy maxRetries outcomes).2.length ≤ maxRetries
    ∧ (call_api_legacy maxRetries outcomes).2
        = (List.range (call_api_legacy maxRetries outcomes).2.length).map
            (2 ^ ·)
    ∧ ((∀ i, outcomes i = .exc) →
        call_api_legacy maxRetries outcomes
          = (.raised, (List.range maxRetries).map (2 ^ ·)))
    ∧ (∀ k : Nat, ((2 ^ k : Nat) : ℚ) = exponential_backoff_delay 1 2 none k)
    ∧ (List.range 5).map (exponential_backoff_delay 1 2 (some 5))
        = [1, 2, 4, 5, 5] := by
  refine ⟨?_, ?_, ?_, ?_, ?_⟩
  · exact (call_api_legacy_from_delays outcomes maxRetries 0).1
  · rw [List.range_eq_range' (call_api_legacy maxRetries outcomes).2.length]
    exact (call_api_legacy_from_delays outcomes maxRetries 0).2
  · intro h
    rw [List.range_eq_range' maxRetries]
    exact call_api_legacy_from_all_exc outcomes h maxRetries 0
  · intro k
    simp [exponential_backoff_delay]
  · simp only [exponential_backoff_delay, List.range_succ, List.range_zero,
      List.map_append, List.map_cons, List.map_nil, List.nil_append,
      List.cons_append]
    norm_num

/-- C8 witness: two allowed retries with every attempt raising a
network exception sleep 1 then 2 seconds and propagate the failure. -/
theorem legacy_retry_backoff_witness :
    call_api_legacy 2 (fun _ => ApiOutcome.exc) = (.raised, [1, 2]) :=
  ((legacy_retry_backoff 2 (fun _ => ApiOutcome.exc)).2.2.1
      (fun _ => rfl)).trans (by decide)

lemma biz_retry_from_immediate (responses : Nat → Option Int)
    (attempt remaining : Nat) (c : Int) (h : responses attempt = some c)
    (h0 : c ≠ 0) (hr : ¬ is_retryable_biz_code c) :
    biz_retry_from responses attempt remaining = (some c, attempt + 1, []) := by
  cases remaining with
  | zero => simp [biz_retry_from, h]
  | succ r => simp [biz_retry_from, h, h0, hr]

lemma biz_retry_from_shape (responses : Nat → Option Int) :
    ∀ (remaining attempt : Nat),
      (biz_retry_from responses attempt remaining).2.2.length ≤ remaining
      ∧ (biz_retry_from responses attempt remaining).2.2
          = (List.range' attempt
              (biz_retry_from responses attempt remaining).2.2.length).map
              (2 ^ ·)
      ∧ (biz_retry_from responses attempt remaining).2.1
          = attempt
            + (biz_retry_from responses attempt remaining).2.2.length + 1 := by
  intro remaining
  induction remaining with
  | zero =>
    intro attempt
    simp [biz_retry_from]
  | succ r ih =>
    intro attempt
    cases h : responses attempt with
    | none => simp [biz_retry_from, h]
    | some c =>
      by_cases hc : (c = 0 || !is_retryable_biz_code c) = true
      · simp [biz_retry_from, h, hc]
      · have := ih (attempt + 1)
        simp only [biz_retry_from, h, hc, if_neg, Bool.false_eq_true,
          not_false_eq_true]
        refine ⟨?_, ?_, ?_⟩
        · simp only [List.length_cons]
          omega
        · simp only [List.length_cons, List.range'_succ, List.map_cons]
          rw [← this.2.1]
        · simp only [List.length_cons]
          omega

/-- C10.  The business-code check retries exactly the fixed set of five
codes; a first response carrying any other nonzero code (known
non-retryable or unknown) is returned after a single attempt with no
sleep; and in every run the number of attempts is at most
max_retries + 1, with the k-th sleep (k from 0) lasting 2^k seconds. -/
theorem biz_retry_spec (maxRetries : Nat) (responses : Nat → Option Int)
    (c : Int) :
    (is_retryable_biz_code c = true ↔ c ∈ RETRYABLE_BIZ_CODES)
    ∧ (c ∈ RETRYABLE_BIZ_CODES
        ↔ (c = 1254290 ∨ c = 1254607 ∨ c = 1254002 ∨ c = 1254001
            ∨ c = 1254006))
    ∧ (responses 0 = some c → c ≠ 0 → ¬ is_retryable_biz_code c →
        call_api_with_biz_retry maxRetries responses = (some c, 1, []))
    ∧ (call_api_with_biz_retry maxRetries responses).2.1 ≤ maxRetries + 1
    ∧ (call_api_with_biz_retry maxRetries responses).2.2
        = (List.range
            (call_api_with_biz_retry maxRetries responses).2.2.length).map
            (2 ^ ·) := by
  refine ⟨?_, ?_, ?_, ?_, ?_⟩
  · simp [is_retryable_biz_code]
  · simp [RETRYABLE_BIZ_CODES]
  · intro h h0 hr
    exact biz_retry_from_immediate responses 0 maxRetries c h h0 hr
  · have := (biz_retry_from_shape responses maxRetries 0).2.2
    have hlen := (biz_retry_from_shape responses maxRetries 0).1
    unfold call_api_with_biz_retry
    omega
  · rw [List.range_eq_range'
      (call_api_with_biz_retry maxRetries responses).2.2.length]
    exact (biz_retry_from_shape responses maxRetries 0).2.1

/-- C10 witness: an unknown nonzero business code is returned after one
attempt with no retry. -/
theorem biz_retry_spec_witness :
    call_api_with_biz_retry 3 (fun _ => some 9999) = (some 9999, 1, []) :=
  (biz_retry_spec 3 (fun _ => some 9999) 9999).2.2.1 rfl (by decide)
    (by decide)

end XTF
